import Mathlib

/-!
Verification of `src/src-tauri/src/utils/privileges.rs` from CursorPool_Client.

The Rust module exposes two free functions, `check_admin_privileges` and
`request_admin_privileges`, each compiled to exactly one of four platform
branches (`windows`, `macos`, `linux`, and a catch-all for any other target).
We embed the compile-time dispatch as an explicit `Platform` argument, and the
native OS facilities used by the Windows branch (`IsUserAnAdmin`,
`ShellExecuteW`) as an environment record `WinEnv` supplied by the caller.
`request_admin_privileges` additionally returns the list of shell-execute
requests it issued, so that theorems can speak about the request the code
constructs and how many times the OS facility is invoked.
-/

namespace Privileges

/-- UTF-16 code units of one Unicode scalar value, as produced per character by
Rust's `OsStr::encode_wide` on a `&str`-backed `OsStr`: a single unit below
`0x10000`, otherwise a surrogate pair. -/
def utf16EncodeChar (c : Char) : List Nat :=
  let n := c.toNat
  if n < 0x10000 then [n]
  else [0xD800 + (n - 0x10000) / 0x400, 0xDC00 + (n - 0x10000) % 0x400]

/-- UTF-16 code units of a character sequence (concatenation per character). -/
def utf16EncodeList : List Char → List Nat
  | [] => []
  | c :: cs => utf16EncodeChar c ++ utf16EncodeList cs

/-- UTF-16 code units of a string, as produced by `OsStr::encode_wide`. -/
def utf16Encode (s : String) : List Nat :=
  utf16EncodeList s.data

/-- `OsStr::new(s).encode_wide().chain(Some(0)).collect()`: the UTF-16 code
units of `s` followed by a single terminating NUL unit. -/
def encodeWideNul (s : String) : List Nat :=
  utf16Encode s ++ [0]

/-- What the OS reads from a `PCWSTR` pointer into a wide-string buffer: the
code units up to (excluding) the first NUL unit. -/
def pcwstrView (units : List Nat) : List Nat :=
  units.takeWhile (fun u => u != 0)

/-- The characters of `s` before its first NUL character (`Char` code 0). -/
def beforeFirstNul (s : String) : String :=
  String.mk (s.data.takeWhile (fun c => c.toNat != 0))

/-- The argument record of one `ShellExecuteW` call. `hwnd` is the numeric
window-handle value (`HWND::default()` is the null handle, value 0);
`operation` and `file` are the wide-string buffers passed by pointer;
`parameters` and `directory` are `none` for `PCWSTR::null()`;
`showCmd` is the numeric `SHOW_WINDOW_CMD` value. -/
structure ShellExecuteRequest where
  hwnd : Nat
  operation : List Nat
  file : List Nat
  parameters : Option (List Nat)
  directory : Option (List Nat)
  showCmd : Nat
deriving DecidableEq, Repr

/-- The native OS facilities the Windows branch consumes: the boolean answer
of `IsUserAnAdmin`, and the `HINSTANCE` value (field `.0`, an `isize`)
returned by `ShellExecuteW` for a given request. -/
structure WinEnv where
  isUserAnAdmin : Bool
  shellExecuteW : ShellExecuteRequest → Int

/-- The compile-time platform dispatch of the `#[cfg(target_os = ...)]`
attributes: one constructor per branch, the catch-all branch carrying the
`std::env::consts::OS` identifier string. -/
inductive Platform where
  | windows
  | macos
  | linux
  | other (osName : String)

/-- The `format!("不支持的操作系统: {}", std::env::consts::OS)` message of the
unsupported-platform branch. -/
def unsupportedMsg (os : String) : String :=
  "不支持的操作系统: " ++ os

/-- `check_admin_privileges` from privileges.rs: on Windows
`Ok(IsUserAnAdmin().as_bool())`, on macOS and Linux `Ok(false)`, on any other
platform `Err(format!("不支持的操作系统: {}", std::env::consts::OS))`. -/
def check_admin_privileges (plat : Platform) (env : WinEnv) : Except String Bool :=
  match plat with
  | .windows => .ok env.isUserAnAdmin
  | .macos => .ok false
  | .linux => .ok false
  | .other os => .error (unsupportedMsg os)

/-- The `ShellExecuteW` request built by the Windows branch of
`request_admin_privileges`: null parent `HWND`, wide `"runas"` operation,
wide `exe_path` file, null parameters, null directory, `SHOW_WINDOW_CMD(1)`. -/
def mkShellExecuteRequest (exe_path : String) : ShellExecuteRequest :=
  { hwnd := 0
    operation := encodeWideNul "runas"
    file := encodeWideNul exe_path
    parameters := none
    directory := none
    showCmd := 1 }

/-- `request_admin_privileges` from privileges.rs, paired with the list of
`ShellExecuteW` requests the call issues. On Windows it issues exactly the one
request of `mkShellExecuteRequest` and answers `Ok(true)` iff the returned
`HINSTANCE` value is strictly greater than 32, else `Ok(false)`; on macOS and
Linux it issues nothing and answers `Ok(false)`; on any other platform it
issues nothing and answers the unsupported-platform error. -/
def request_admin_privileges (plat : Platform) (env : WinEnv) (exe_path : String) :
    Except String Bool × List ShellExecuteRequest :=
  match plat with
  | .windows =>
    let req := mkShellExecuteRequest exe_path
    let result := env.shellExecuteW req
    (if result > 32 then .ok true else .ok false, [req])
  | .macos => (.ok false, [])
  | .linux => (.ok false, [])
  | .other os => (.error (unsupportedMsg os), [])

/-- A shell-execute request up to what the OS can observe through the
`PCWSTR` file pointer: the file buffer is cut at its first NUL unit. -/
def effectiveShellRequest (exe_path : String) : ShellExecuteRequest :=
  let req := mkShellExecuteRequest exe_path
  { req with file := pcwstrView req.file }

/-- A trace of `n` successive `check_admin_privileges` calls against one fixed
platform and one fixed OS privilege state. -/
def checkCallTrace (plat : Platform) (env : WinEnv) (n : Nat) :
    List (Except String Bool) :=
  (List.range n).map (fun _ => check_admin_privileges plat env)

theorem takeWhile_append_of_all {α : Type} (p : α → Bool) (l1 l2 : List α)
    (h : ∀ x ∈ l1, p x = true) :
    (l1 ++ l2).takeWhile p = l1 ++ l2.takeWhile p := by
  induction l1 with
  | nil => simp
  | cons a l ih =>
    rw [List.cons_append, List.takeWhile_cons_of_pos (h a (by simp)),
      ih (fun x hx => h x (by simp [hx])), List.cons_append]

theorem utf16EncodeChar_ne_zero (c : Char) (hc : c.toNat ≠ 0) :
    ∀ u ∈ utf16EncodeChar c, (u != 0) = true := by
  intro u hu
  unfold utf16EncodeChar at hu
  simp only [bne_iff_ne, ne_eq]
  by_cases h : c.toNat < 0x10000
  · simp only [h, if_pos] at hu
    simp only [List.mem_singleton] at hu
    omega
  · simp only [h, if_neg, not_false_iff] at hu
    simp only [List.mem_cons, List.mem_singleton, List.not_mem_nil, or_false] at hu
    rcases hu with hu | hu <;> omega

theorem utf16EncodeChar_of_nul (c : Char) (hc : c.toNat = 0) :
    utf16EncodeChar c = [0] := by
  unfold utf16EncodeChar
  rw [hc]
  simp

theorem pcwstrView_encodeWideNul (l : List Char) :
    pcwstrView (utf16EncodeList l ++ [0]) =
      utf16EncodeList (l.takeWhile (fun c => c.toNat != 0)) := by
  induction l with
  | nil => simp [utf16EncodeList, pcwstrView]
  | cons c cs ih =>
    by_cases hc : c.toNat = 0
    · rw [utf16EncodeList, utf16EncodeChar_of_nul c hc,
        List.takeWhile_cons_of_neg (by simp [hc])]
      simp [pcwstrView, utf16EncodeList]
    · rw [utf16EncodeList, List.takeWhile_cons_of_pos (by simp [hc]),
        utf16EncodeList, List.append_assoc, pcwstrView,
        takeWhile_append_of_all _ _ _ (utf16EncodeChar_ne_zero c hc)]
      rw [pcwstrView] at ih
      rw [ih]

theorem pcwstrView_file (p : String) :
    pcwstrView (mkShellExecuteRequest p).file = utf16Encode (beforeFirstNul p) := by
  show pcwstrView (utf16Encode p ++ [0]) = _
  rw [utf16Encode, pcwstrView_encodeWideNul]
  rfl

/-- Claim C1: on Windows, `request_admin_privileges` always returns `Ok` and
never `Err`: `Ok(true)` exactly when the `ShellExecuteW` completion value is
strictly greater than 32, `Ok(false)` for every other completion value. -/
theorem c1_windows_request_ok_iff_gt32 (env : WinEnv) (p : String) :
    ∃ b : Bool,
      (request_admin_privileges .windows env p).1 = .ok b ∧
      (b = true ↔ env.shellExecuteW (mkShellExecuteRequest p) > 32) := by
  by_cases h : env.shellExecuteW (mkShellExecuteRequest p) > 32
  · exact ⟨true, by simp [request_admin_privileges, h], by simp [h]⟩
  · exact ⟨false, by simp [request_admin_privileges, h], by simp [h]⟩

/-- Claim C2: on an unsupported platform both functions return an `Err` (never
a boolean) for every input, and the error message contains the detected OS
identifier string. -/
theorem c2_unsupported_platform_errors (os p : String) (env : WinEnv) :
    ∃ e : String,
      check_admin_privileges (.other os) env = .error e ∧
      (request_admin_privileges (.other os) env p).1 = .error e ∧
      ∃ head : String, e = head ++ os :=
  ⟨unsupportedMsg os, rfl, rfl, "不支持的操作系统: ", rfl⟩

/-- Claim C3: on macOS and on Linux, `check_admin_privileges` always returns
`Ok(false)` and never an error, regardless of the OS privilege state. -/
theorem c3_macos_linux_check_false (env : WinEnv) :
    check_admin_privileges .macos env = .ok false ∧
    check_admin_privileges .linux env = .ok false :=
  ⟨rfl, rfl⟩

/-- Claim C4: on macOS and on Linux, `request_admin_privileges` returns
`Ok(false)` for every input path, unconditionally and never an error. -/
theorem c4_macos_linux_request_false (env : WinEnv) (p : String) :
    (request_admin_privileges .macos env p).1 = .ok false ∧
    (request_admin_privileges .linux env p).1 = .ok false :=
  ⟨rfl, rfl⟩

/-- Claim C5: on Windows, `check_admin_privileges` never returns an error and
returns verbatim the boolean produced by `IsUserAnAdmin`: `Ok(true)` exactly
when the process is elevated, `Ok(false)` otherwise. -/
theorem c5_windows_check_verbatim (env : WinEnv) :
    check_admin_privileges .windows env = .ok env.isUserAnAdmin ∧
    (check_admin_privileges .windows env = .ok true ↔ env.isUserAnAdmin = true) := by
  refine ⟨rfl, ?_⟩
  cases h : env.isUserAnAdmin <;> simp [check_admin_privileges, h]

/-- Claim C6: `request_admin_privileges` is total for every string input on
every platform branch: on Windows it reaches a boolean answer (the wide-string
conversion always produces a NUL-terminated buffer), on macOS and Linux it is
constant `Ok(false)`, and on any other platform it returns an error value. -/
theorem c6_request_total_all_branches (env : WinEnv) (p : String) :
    (∃ b : Bool, (request_admin_privileges .windows env p).1 = .ok b) ∧
    (mkShellExecuteRequest p).file = utf16Encode p ++ [0] ∧
    (request_admin_privileges .macos env p).1 = .ok false ∧
    (request_admin_privileges .linux env p).1 = .ok false ∧
    ∀ os : String, ∃ e : String,
      (request_admin_privileges (.other os) env p).1 = .error e := by
  refine ⟨?_, rfl, rfl, rfl, fun os => ⟨unsupportedMsg os, rfl⟩⟩
  by_cases h : env.shellExecuteW (mkShellExecuteRequest p) > 32
  · exact ⟨true, by simp [request_admin_privileges, h]⟩
  · exact ⟨false, by simp [request_admin_privileges, h]⟩

/-- Claim C7: on Windows, `request_admin_privileges` issues exactly one
`ShellExecuteW` request, whose fields are the null parent window handle, the
wide `"runas"` operation, the wide input path as file, null parameters, null
directory, and show-command 1. -/
theorem c7_windows_single_request_fields (env : WinEnv) (p : String) :
    (request_admin_privileges .windows env p).2 = [mkShellExecuteRequest p] ∧
    (mkShellExecuteRequest p).hwnd = 0 ∧
    (mkShellExecuteRequest p).operation = encodeWideNul "runas" ∧
    (mkShellExecuteRequest p).file = encodeWideNul p ∧
    (mkShellExecuteRequest p).parameters = none ∧
    (mkShellExecuteRequest p).directory = none ∧
    (mkShellExecuteRequest p).showCmd = 1 :=
  ⟨rfl, rfl, rfl, rfl, rfl, rfl, rfl⟩

/-- Claim C8: `check_admin_privileges` is deterministic: against one fixed
platform and one fixed OS privilege state, every call in a trace of repeated
calls returns the same result. -/
theorem c8_check_deterministic (plat : Platform) (env : WinEnv) (n : Nat)
    (r : Except String Bool) (h : r ∈ checkCallTrace plat env n) :
    r = check_admin_privileges plat env := by
  rcases List.mem_map.mp h with ⟨_, _, hr⟩
  exact hr.symm

/-- Witness for C8: a concrete two-call trace on Linux, every element of which
is the common result `Ok(false)`. -/
theorem c8_check_deterministic_witness :
    (Except.ok false : Except String Bool) ∈
      checkCallTrace .linux ⟨false, fun _ => 0⟩ 2 ∧
    (Except.ok false : Except String Bool) =
      check_admin_privileges .linux ⟨false, fun _ => 0⟩ :=
  ⟨by simp [checkCallTrace, check_admin_privileges],
    c8_check_deterministic .linux ⟨false, fun _ => 0⟩ 2 (Except.ok false)
      (by simp [checkCallTrace, check_admin_privileges])⟩

/-- Claim C10: on an unsupported platform, `check_admin_privileges` and
`request_admin_privileges` return the identical error string for every path
input: the same fixed head followed by the OS identifier, independent of the
path argument. -/
theorem c10_unsupported_same_error (os p1 p2 : String) (env : WinEnv) :
    check_admin_privileges (.other os) env =
      .error ("不支持的操作系统: " ++ os) ∧
    (request_admin_privileges (.other os) env p1).1 =
      check_admin_privileges (.other os) env ∧
    (request_admin_privileges (.other os) env p1).1 =
      (request_admin_privileges (.other os) env p2).1 :=
  ⟨rfl, rfl, rfl⟩

/-- Claim C9: on Windows the file field of the shell-execute request is the
UTF-16 encoding of the path followed by one terminating NUL unit; through the
`PCWSTR` pointer the OS reads it only up to the first NUL unit, so two inputs
agreeing up to their first NUL character produce the same effective request. -/
theorem c9_nul_truncation (p1 p2 : String)
    (h : beforeFirstNul p1 = beforeFirstNul p2) :
    (mkShellExecuteRequest p1).file = utf16Encode p1 ++ [0] ∧
    pcwstrView (mkShellExecuteRequest p1).file = utf16Encode (beforeFirstNul p1) ∧
    effectiveShellRequest p1 = effectiveShellRequest p2 := by
  refine ⟨rfl, pcwstrView_file p1, ?_⟩
  simp only [effectiveShellRequest]
  rw [pcwstrView_file p1, pcwstrView_file p2, h]
  rfl

/-- Witness for C9: the distinct paths "a\x00b" and "a\x00c" agree before
their first NUL character and produce the same effective request. -/
theorem c9_nul_truncation_witness :
    beforeFirstNul "a\x00b" = beforeFirstNul "a\x00c" ∧
    "a\x00b" ≠ "a\x00c" ∧
    effectiveShellRequest "a\x00b" = effectiveShellRequest "a\x00c" :=
  ⟨by decide, by decide,
    (c9_nul_truncation "a\x00b" "a\x00c" (by decide)).2.2⟩

end Privileges
